import Mathlib

/-!
Verification of the `arch` crash/diagnostic capture pipeline
(`src/arch/stackTrace.cpp`, `src/arch/timing.cpp`) against its
natural-language specification.

C strings are modelled as `Option (List Char)`: `none` is the NULL
pointer, `some cs` is a NUL-terminated string whose characters are `cs`
(the terminator is implicit, so `cs` itself contains no NUL).
Machine integers are modelled as `Nat`/`Int`; where C overflow or
wrap-around matters it is made explicit.
-/

namespace Arch

/-- A C string: `none` is NULL, `some cs` holds the characters before the
implicit NUL terminator. -/
abbrev CStr : Type := Option (List Char)

/-- Embeds `asstrlen` (stackTrace.cpp:312): returns 0 for NULL, else the
number of characters before the NUL. -/
def asstrlen (s : CStr) : Nat :=
  match s with
  | none => 0
  | some cs => cs.length

/-- Embeds `asstrcpy` (stackTrace.cpp:328).  The C code dereferences `src`
unconditionally (`while ((*dst++ = *src++))`), so a NULL `src` is a NULL
dereference: we model that fault as `none`.  For non-NULL `src` the copy
writes the characters of `src` plus a NUL into `dst` and returns a pointer
to the NUL, i.e. `dst + length src`; we return the copied characters
together with that end offset. -/
def asstrcpy (src : CStr) : Option (List Char × Nat) :=
  match src with
  | none => none
  | some cs => some (cs, cs.length)

/-- The character-by-character loop of `asstreq` (stackTrace.cpp:343):
`while (*dst || *src) if (*dst++ != *src++) return false; return true`. -/
def asstreqChars : List Char → List Char → Bool
  | [], [] => true
  | [], _ :: _ => false
  | _ :: _, [] => false
  | d :: ds, s :: ss => d = s && asstreqChars ds ss

/-- Embeds `asstreq` (stackTrace.cpp:338): two NULLs compare equal, a NULL
and a non-NULL compare unequal, else the character loop runs. -/
def asstreq (dst src : CStr) : Bool :=
  match dst, src with
  | none, none => true
  | none, some _ => false
  | some _, none => false
  | some d, some s => asstreqChars d s

/-- The loop of `asstrneq` (stackTrace.cpp:357):
`while ((*dst || *src) && n) { if (*dst++ != *src++) return false; --n }`. -/
def asstrneqChars : List Char → List Char → Nat → Bool
  | _, _, 0 => true
  | [], [], _ + 1 => true
  | [], _ :: _, _ + 1 => false
  | _ :: _, [], _ + 1 => false
  | d :: ds, s :: ss, n + 1 => d = s && asstrneqChars ds ss n

/-- Embeds `asstrneq` (stackTrace.cpp:352): NULL handling as in `asstreq`,
else compare up to `n` characters. -/
def asstrneq (dst src : CStr) (n : Nat) : Bool :=
  match dst, src with
  | none, none => true
  | none, some _ => false
  | some _, none => false
  | some d, some s => asstrneqChars d s n

/-- Embeds the substitution applied to one template token inside the loop
of `_MakeArgv` (stackTrace.cpp:527-541): a token equal to `"$cmd"` becomes
the command, a token equal to the first matching substitution key becomes
that key's value, any other token (including the copied terminator) is kept
unchanged. -/
def makeArgvSubst (cmd : List Char) (substitutions : List (List Char × CStr))
    (tok : CStr) : CStr :=
  if asstreq tok (some ("$cmd".toList)) then some cmd
  else
    match substitutions.find? (fun kv => asstreq tok (some kv.1)) with
    | some kv => kv.2
    | none => tok

/-- Embeds `_MakeArgv` (stackTrace.cpp:505).  `srcArgv` is the template:
`none` models a NULL template pointer, `some toks` a NULL-terminated array
whose non-NULL entries are `toks`.  The C code counts `n = toks.length + 1`
(it counts the terminator slot), fails iff `n >= maxDstArgs`, then loops
over all `n` entries (token substitution; the terminator entry is copied as
NULL since `asstreq(NULL, _)` is false) and finally writes one more NULL.
The result is the list of destination slots written, in order. -/
def makeArgv (maxDstArgs : Nat) (cmd : CStr) (srcArgv : Option (List (List Char)))
    (substitutions : List (List Char × CStr)) : Option (List CStr) :=
  match cmd, srcArgv with
  | some c, some toks =>
    let n := toks.length + 1
    if maxDstArgs ≤ n then none
    else
      let entries : List CStr := toks.map some ++ [none]
      some (entries.map (makeArgvSubst c substitutions) ++ [none])
  | _, _ => none

/-! ### Decimal formatting (`asNumDigits`, `asitoa`) -/

/-- The width of a C `long` on the 64-bit platforms this code targets. -/
def longBits : Nat := 64

/-- Smallest representable `long` value, `LONG_MIN = -2^63`. -/
def longMin : Int := -(2 ^ (longBits - 1))

/-- Two's-complement negation of a `long`: `-x` for every representable
`x` except `LONG_MIN`, whose negation wraps back to `LONG_MIN` (in C this
is signed overflow; on the two's-complement targets of this code it
wraps). -/
def longNeg (x : Int) : Int :=
  if x = longMin then longMin else -x

/-- The digit-counting loop of `asNumDigits` (stackTrace.cpp:398):
`while (x >= 10) { ++result; x /= 10 }` counted as number of iterations,
for the non-negative values the loop actually sees. -/
def digitLoop (x : Nat) : Nat :=
  if x < 10 then 0 else 1 + digitLoop (x / 10)

/-- Embeds `asNumDigits` (stackTrace.cpp:391): `result = 1`, plus one for
the minus sign after negating a negative input, plus one per loop
iteration.  For `x = LONG_MIN` the negation wraps and stays negative, the
loop runs zero times (as it does for 0), and the function returns 2. -/
def asNumDigits (x : Int) : Nat :=
  if x < 0 then 2 + digitLoop (longNeg x).toNat
  else 1 + digitLoop x.toNat

/-- The digit-writing loop of `asitoa` (stackTrace.cpp:425): digits are
written backwards from the end of the buffer, so read left to right the
written characters are the digits of `x / 10` followed by the digit of
`x % 10`.  Empty for `x = 0` (the loop body never runs). -/
def asitoaDigits (x : Nat) : List Char :=
  if x = 0 then [] else asitoaDigits (x / 10) ++ [Nat.digitChar (x % 10)]

/-- Embeds `asitoa` (stackTrace.cpp:407).  For negative `x` the code first
negates (`x = -x`, line 411) and stores `'-'` at `s[0]` WITHOUT advancing
`s` (`*s = '-'`, line 412); it then advances `s` by `asNumDigits` of the
already-negated, now positive value — the digit count of `|x|` alone, with
no sign slot — writes the NUL there, and writes the digits backwards from
that end.  The digit loop therefore fills `s[0..digitCount)` completely,
overwriting the stored `'-'`, so the characters left in `s[0..end)` are
just the decimal digits of `|x|` and the returned end offset is
`digitCount(|x|)`.  Result: the characters remaining in `s[0..end)` paired
with the returned end offset (the NUL position).  For `x = LONG_MIN` the
wrapped negation leaves `x` negative and the digit loop evaluates
`digit[x % 10]` with a negative remainder — an out-of-bounds read,
modelled as `none`. -/
def asitoa (x : Int) : Option (List Char × Nat) :=
  if x < 0 then
    let y := longNeg x
    if y < 0 then none
    else
      some ((if y = 0 then ['0'] else asitoaDigits y.toNat), asNumDigits y)
  else
    some ((if x = 0 then ['0'] else asitoaDigits x.toNat), asNumDigits x)

/-- Reference decimal rendering, most-significant digit first, written
independently of the code with explicit fuel so that it evaluates by
kernel reduction: a number below 10 is a single digit, otherwise the
rendering of `n / 10` followed by the last digit. -/
def decRepAux : Nat → Nat → List Char
  | 0, _ => []
  | fuel + 1, n =>
    if n < 10 then [Nat.digitChar n]
    else decRepAux fuel (n / 10) ++ [Nat.digitChar (n % 10)]

/-- Reference decimal rendering of a natural number (`"0"` for 0, no
leading zeros otherwise). -/
def decRep (n : Nat) : List Char := decRepAux (n + 1) n

/-- Reference count of decimal digits of a natural number (1 for 0). -/
def decDigitCount (n : Nat) : Nat := (decRep n).length

/-! ### Process-wide diagnostic state
(`_ProgInfo`, `_LogInfo`, program name, crash flag) -/

/-- Upsert into a `std::map` modelled as an association list sorted by
strictly increasing key: `_progInfoMap[key] = value`. -/
def mapInsert {α : Type} (k : String) (v : α) :
    List (String × α) → List (String × α)
  | [] => [(k, v)]
  | (k', v') :: rest =>
    if k < k' then (k, v) :: (k', v') :: rest
    else if k = k' then (k, v) :: rest
    else (k', v') :: mapInsert k v rest

/-- Erase from the sorted association list: `_progInfoMap.erase(key)`. -/
def mapErase {α : Type} (k : String) :
    List (String × α) → List (String × α)
  | [] => []
  | (k', v') :: rest =>
    if k = k' then rest else (k', v') :: mapErase k rest

/-- The snapshot string rebuilt by `_ProgInfo::SetProgramInfoForErrors`
(stackTrace.cpp:192-203): one `"key: value\n"` piece per map entry, in
map iteration order. -/
def flattenInfo (m : List (String × String)) : String :=
  String.join (m.map (fun kv => kv.1 ++ ": " ++ kv.2 ++ "\n"))

/-- The suffix of `l` strictly after its last `'/'`, or `none` when `l`
contains no `'/'` — the `strrchr(path, '/')` step of `getBase`. -/
def afterLastSlash : List Char → Option (List Char)
  | [] => none
  | c :: rest =>
    match afterLastSlash rest with
    | some s => some s
    | none => if c = '/' then some rest else none

/-- Embeds `getBase` (stackTrace.cpp:646, POSIX branch): no `'/'` returns
the whole path; otherwise the part after the last `'/'` if it is
non-empty, else the whole path. -/
def getBase (path : String) : String :=
  match afterLastSlash path.toList with
  | none => path
  | some base => if 0 < base.length then String.mk base else path

/-- Spec-side description of the claim on `_MakeArgv` substitution: a
token equal to `"$cmd"` becomes the command, a token equal to a
substitution key becomes that key's value (first match), any other token
is copied unchanged. -/
def substTokenSpec (cmd : List Char) (subs : List (List Char × CStr))
    (t : List Char) : CStr :=
  if t = "$cmd".toList then some cmd
  else
    match subs.find? (fun kv => t = kv.1) with
    | some kv => kv.2
    | none => some t

/-- Spec-side "final path component": the maximal suffix of the path that
contains no `'/'` (the substring after the last `'/'`; the whole string
when there is no `'/'`). -/
def lastComponentSpec (p : String) : String :=
  String.mk ((p.toList.reverse.takeWhile (fun c => c ≠ '/')).reverse)

/-- The process-wide mutable state of the component:
`_ProgInfo::_progInfoMap`, `_ProgInfo::_progInfoForErrors` (the flattened
snapshot), `_LogInfo::_logInfoForErrors`, `_progNameForErrors`,
`_isCrashing`, `_shouldLogStackToDb` (stackTrace.cpp:130), the session-log
command and argv templates (stackTrace.cpp:134-138), the postmortem
command and argv templates (stackTrace.cpp:303-305), the installed
symbolization callback (stackTrace.cpp:1418, empty `std::function` =
`none`), and the one-shot `atexit` registration of `EnableSessionLogging`
(stackTrace.cpp:297). -/
structure ArchState where
  progInfoMap : List (String × String)
  progInfoSnapshot : String
  logInfoMap : List (String × List String)
  progName : Option String
  isCrashing : Bool
  shouldLogStackToDb : Bool
  logStackToDbCmd : Option String
  sessionLogArgv : Option (List String)
  sessionCrashLogArgv : Option (List String)
  processStateCmd : Option String
  nonFatalArgv : Option (List String)
  fatalArgv : Option (List String)
  stackTraceCallback : Option (Nat → String)
  atexitRegistered : Bool

/-- The state at process start: empty maps, NULL snapshot, program name,
commands and callback, crash flag and logging flag clear. -/
def initState : ArchState :=
  { progInfoMap := []
    progInfoSnapshot := ""
    logInfoMap := []
    progName := none
    isCrashing := false
    shouldLogStackToDb := false
    logStackToDbCmd := none
    sessionLogArgv := none
    sessionCrashLogArgv := none
    processStateCmd := none
    nonFatalArgv := none
    fatalArgv := none
    stackTraceCallback := none
    atexitRegistered := false }

/-- The public operations of the component that mutate process-wide
state.  `logFatalProcessState` and `logCurrentProcessState` are
`_LogProcessStateHelper` with `isFatal` true resp. false
(stackTrace.cpp:1082, 1089); `logStackTrace` is the non-forking variant
(stackTrace.cpp:1110); `setFatalStackLogging` (stackTrace.cpp:759),
`setLogSession` (stackTrace.cpp:935), `setProcessStateLogCommand`
(stackTrace.cpp:721), `setStackTraceCallback` (stackTrace.cpp:1453),
`enableSessionLogging` (stackTrace.cpp:295) and `logSessionInfo`
(stackTrace.cpp:928) cover the rest of the mutating API. -/
inductive ArchOp : Type
  | setProgramInfo (key value : String)
  | setExtraLogInfo (key : String) (lines : Option (List String))
  | setProgramName (progName : Option String)
  | logFatalProcessState
  | logCurrentProcessState
  | logStackTrace (fatal : Bool)
  | setFatalStackLogging (flag : Bool)
  | setLogSession (command : Option String) (argv crashArgv : Option (List String))
  | setProcessStateLogCommand (command : Option String)
      (argv fatalArgv : Option (List String))
  | setStackTraceCallback (cb : Option (Nat → String))
  | enableSessionLogging
  | logSessionInfo (crashStackTrace : Option String)

/-- One operation's effect on the modelled state.
`setProgramInfo` (stackTrace.cpp:180): empty value erases, otherwise
upserts, then the snapshot is recomputed from the map.
`setExtraLogInfo` (stackTrace.cpp:250): NULL or empty line list erases,
otherwise upserts.
`setProgramName` (stackTrace.cpp:791): NULL clears, otherwise stores
`getBase` of the argument.
`_LogProcessStateHelper` (stackTrace.cpp:954) sets `_isCrashing` iff
`isFatal`; none of its output side effects touch the modelled fields, and
`logStackTrace` touches none of them.
`setFatalStackLogging` stores its flag; `setLogSession` and
`setProcessStateLogCommand` store their command and argv-template
pointers; `setStackTraceCallback` stores the callback;
`enableSessionLogging` registers the `atexit` hook (idempotently);
`logSessionInfo` only reads state and invokes the external logger. -/
def archStep (op : ArchOp) (s : ArchState) : ArchState :=
  match op with
  | .setProgramInfo key value =>
    let m := if value = "" then mapErase key s.progInfoMap
             else mapInsert key value s.progInfoMap
    { s with progInfoMap := m, progInfoSnapshot := flattenInfo m }
  | .setExtraLogInfo key lines =>
    match lines with
    | none => { s with logInfoMap := mapErase key s.logInfoMap }
    | some ls =>
      if ls = [] then { s with logInfoMap := mapErase key s.logInfoMap }
      else { s with logInfoMap := mapInsert key ls s.logInfoMap }
  | .setProgramName p =>
    match p with
    | none => { s with progName := none }
    | some path => { s with progName := some (getBase path) }
  | .logFatalProcessState => { s with isCrashing := true }
  | .logCurrentProcessState => s
  | .logStackTrace _ => s
  | .setFatalStackLogging flag => { s with shouldLogStackToDb := flag }
  | .setLogSession command argv crashArgv =>
    { s with logStackToDbCmd := command, sessionLogArgv := argv,
             sessionCrashLogArgv := crashArgv }
  | .setProcessStateLogCommand command argv fatalArgv =>
    { s with processStateCmd := command, nonFatalArgv := argv,
             fatalArgv := fatalArgv }
  | .setStackTraceCallback cb => { s with stackTraceCallback := cb }
  | .enableSessionLogging => { s with atexitRegistered := true }
  | .logSessionInfo _ => s

/-- Run a sequence of operations from a starting state. -/
def archRun (s : ArchState) (ops : List ArchOp) : ArchState :=
  ops.foldl (fun s op => archStep op s) s

/-- Embeds `IsAppCrashing` (stackTrace.cpp:944). -/
def isAppCrashing (s : ArchState) : Bool := s.isCrashing

/-- Embeds `GetProgramNameForErrors` (stackTrace.cpp:808): the stored name
when set, else the constant `"libArch"`. -/
def getProgramNameForErrors (s : ArchState) : String :=
  match s.progName with
  | none => "libArch"
  | some n => n

/-- True iff the operation is the fatal entry point. -/
def isFatalOp : ArchOp → Bool
  | .logFatalProcessState => true
  | _ => false

/-- The two-part invariant of `_ProgInfo`: the precomputed snapshot equals
the flattening of the map, and the map is sorted by strictly increasing
key. -/
def ProgInfoInv (s : ArchState) : Prop :=
  s.progInfoSnapshot = flattenInfo s.progInfoMap
  ∧ s.progInfoMap.Pairwise (fun a b => a.1 < b.1)

/-! ### `_MeasureExecutionTime` (timing.cpp:249) -/

/-- `NumSamples` (timing.cpp:282). -/
def numSamples : Nat := 64

/-- `~0` as a `uint64_t`, the initial value of `bestMedian`
(timing.cpp:296). -/
def uint64Max : Nat := 2 ^ 64 - 1

/-- The cap applied to the time budget (timing.cpp:289-291):
`if (maxMicroseconds > 5000000) maxMicroseconds = 5000000`. -/
def capMaxMicroseconds (maxMicroseconds : Nat) : Nat :=
  if 5000000 < maxMicroseconds then 5000000 else maxMicroseconds

/-- `std::sort` on the sample buffer (timing.cpp:298), modelled by
insertion sort (for `≤` on `Nat` the sorted permutation is unique, so any
correct sort yields this list). -/
def sortSamples (samples : List Nat) : List Nat :=
  samples.insertionSort (· ≤ ·)

/-- `sampleTimes[NumSamples/2]` of the sorted buffer. -/
def medianOf (samples : List Nat) : Nat :=
  (sortSamples samples).getD (numSamples / 2) 0

/-- One iteration's environment interaction: the elapsed-tick reading of
`limitTimer` at the check on timing.cpp:306, and the values produced by
`measureSample()` for the two refill loops (timing.cpp:313-319): 21
replacements for the slowest third, 6 for the fastest tenth. -/
structure MeasureIter where
  elapsed : Nat
  slowNew : List Nat
  fastNew : List Nat
  deriving Repr

/-- The refill step (timing.cpp:313-319) applied to the sorted buffer:
slots `[NumSamples - NumSamples/3, NumSamples)` (the slowest 21) take the
new slow samples, then slots `[0, NumSamples/10)` (the fastest 6) take the
new fast samples. -/
def resample (sorted : List Nat) (it : MeasureIter) : List Nat :=
  it.fastNew ++
    ((sorted.take (numSamples - numSamples / 3) ++ it.slowNew).drop (numSamples / 10))

/-- Embeds the consensus loop of `_MeasureExecutionTime`
(timing.cpp:297-330).  Each pass: sort; if the minimum equals the median,
return it with consensus; else if the elapsed reading is at least
`maxTicks`, return `bestMedian` with no consensus; else fold the median
into `bestMedian`, refill, repeat.  The iteration list supplies the
environment readings; its exhaustion also models the time budget running
out. -/
def measureLoop (maxTicks : Nat) :
    List MeasureIter → List Nat → Nat → Nat × Bool
  | iters, samples, bestMedian =>
    let sorted := sortSamples samples
    let mn := sorted.getD 0 0
    let med := sorted.getD (numSamples / 2) 0
    if mn = med then (mn, true)
    else
      match iters with
      | [] => (bestMedian, false)
      | it :: rest =>
        if maxTicks ≤ it.elapsed then (bestMedian, false)
        else measureLoop maxTicks rest (resample sorted it) (min bestMedian med)

/-- The medians of the iterations the loop completes (those that pass both
the consensus check and the time check), in order — the medians the code
folds into `bestMedian`. -/
def completedMedians (maxTicks : Nat) :
    List MeasureIter → List Nat → List Nat
  | iters, samples =>
    let sorted := sortSamples samples
    let mn := sorted.getD 0 0
    let med := sorted.getD (numSamples / 2) 0
    if mn = med then []
    else
      match iters with
      | [] => []
      | it :: rest =>
        if maxTicks ≤ it.elapsed then []
        else med :: completedMedians maxTicks rest (resample sorted it)

/-! ### Tick conversions (timing.cpp:232-245)

The C code computes with `double`; the embedding uses exact rational
arithmetic for the calibrated `_NanosecondsPerTick` constant and the
intermediate products.  The `int64_t(...)` cast truncates toward zero,
which on the non-negative operands that arise here is the floor. -/

/-- Embeds `TicksToNanoseconds` (timing.cpp:232):
`int64_t(double(nTicks) * _NanosecondsPerTick + .5)`. -/
def ticksToNanoseconds (nsPerTick : ℚ) (nTicks : Nat) : Int :=
  ⌊(nTicks : ℚ) * nsPerTick + 1 / 2⌋

/-- Embeds `TicksToSeconds` (timing.cpp:237):
`double(TicksToNanoseconds(nTicks)) / 1e9`. -/
def ticksToSeconds (nsPerTick : ℚ) (nTicks : Nat) : ℚ :=
  (ticksToNanoseconds nsPerTick nTicks : ℚ) / 1000000000

/-! ### Symbolization and trace rendering (stackTrace.cpp:1359-1451) -/

/-- `x - 1` at `uintptr_t` width (wraps at 0). -/
def u64pred (a : Nat) : Nat := (a + (2 ^ 64 - 1)) % 2 ^ 64

/-- `a - b` at `uint64_t` width. -/
def u64sub (a b : Nat) : Nat := (a + (2 ^ 64 - b % 2 ^ 64)) % 2 ^ 64

/-- Lowercase hexadecimal rendering, most-significant digit first, with
explicit fuel so that it evaluates by kernel reduction. -/
def hexRepAux : Nat → Nat → List Char
  | 0, _ => []
  | fuel + 1, n =>
    if n < 16 then [Nat.digitChar n]
    else hexRepAux fuel (n / 16) ++ [Nat.digitChar (n % 16)]

/-- Lowercase hexadecimal rendering of `n` (`"0"` for 0). -/
def hexRep (n : Nat) : List Char := hexRepAux (n + 1) n

/-- `printf` `"%#0lx"`: alternate-form hex — `"0"` for zero, else
`"0x"` followed by the hex digits. -/
def hexAlt (n : Nat) : String :=
  if n = 0 then "0" else "0x" ++ String.mk (hexRep n)

/-- `printf` `"%016lx"`: hex digits zero-padded on the left to width
16. -/
def hex16 (n : Nat) : String :=
  String.mk (List.replicate (16 - (hexRep n).length) '0' ++ hexRep n)

/-- `printf` `"%-3i"` for a non-negative index: decimal digits padded on
the right with spaces to width 3. -/
def padIndex (n : Nat) : String :=
  String.mk (decRep n ++ List.replicate (3 - (decRep n).length) ' ')

/-- The output record of `GetAddressInfo`, an external collaborator of
`_DefaultStackTraceCallback`: module path, module base, symbol name and
symbol address, the latter possibly NULL. -/
structure AddressInfo where
  objectPath : String
  baseAddress : Option Nat
  symbolName : String
  symbolAddress : Option Nat

/-- Embeds `_DefaultStackTraceCallback` (stackTrace.cpp:1359).  `lookup`
stands for `GetAddressInfo` (`none` = lookup failed) and `demangle` for
`_DemangleFunctionName`; both are external collaborators, passed as
parameters.  The lookup is performed at `address - 1`; on success with a
non-NULL symbol address the frame is rendered
`"<name>+<offset in %#0lx form>"`, otherwise the literal
`"<unknown>"`. -/
def defaultStackTraceCallback (lookup : Nat → Option AddressInfo)
    (demangle : String → String) (address : Nat) : String :=
  match lookup (u64pred address) with
  | some info =>
    match info.symbolAddress with
    | some symbolAddress =>
      demangle info.symbolName ++ "+" ++ hexAlt (u64sub address symbolAddress)
    | none => "<unknown>"
  | none => "<unknown>"

/-- One rendered frame line, `" #%-3i 0x%016lx in %s"`
(stackTrace.cpp:1446). -/
def frameLine (n : Nat) (address : Nat) (symbolic : String) : String :=
  " #" ++ padIndex n ++ " 0x" ++ hex16 address ++ " in " ++ symbolic

/-- The rendering loop of `_GetStackTrace` (stackTrace.cpp:1440-1448):
`n` counts emitted lines; a frame whose symbolization is `"<unknown>"` is
skipped (without consuming an index) when `skipUnknownFrames` is set. -/
def traceLoop (callback : Nat → String) (skipUnknownFrames : Bool) :
    List Nat → Nat → List String
  | [], _ => []
  | f :: rest, n =>
    let symbolic := callback f
    if skipUnknownFrames && symbolic = "<unknown>" then
      traceLoop callback skipUnknownFrames rest n
    else
      frameLine n f symbolic :: traceLoop callback skipUnknownFrames rest (n + 1)

/-- Embeds `_GetStackTrace` (stackTrace.cpp:1424): an empty frame list
yields the fixed placeholder message, else the rendering loop starting at
index 0.  `callback` is the installed symbolization callback, or
`_DefaultStackTraceCallback` when none is installed. -/
def getStackTraceList (callback : Nat → String) (frames : List Nat)
    (skipUnknownFrames : Bool) : List String :=
  if frames = [] then
    ["No frames saved, stack traces probably not supported on this architecture."]
  else traceLoop callback skipUnknownFrames frames 0

/-! ### Supporting lemmas -/

lemma asstreqChars_eq_decide (a b : List Char) :
    asstreqChars a b = decide (a = b) := by
  induction a generalizing b with
  | nil => cases b <;> simp [asstreqChars]
  | cons d ds ih =>
    cases b with
    | nil => simp [asstreqChars]
    | cons s ss => by_cases h : d = s <;> simp [asstreqChars, h, ih]

lemma asstrneqChars_eq_decide (a b : List Char) (n : Nat) :
    asstrneqChars a b n = decide (a.take n = b.take n) := by
  induction a generalizing b n with
  | nil =>
    cases b with
    | nil => cases n <;> simp [asstrneqChars]
    | cons s ss => cases n <;> simp [asstrneqChars]
  | cons d ds ih =>
    cases b with
    | nil => cases n <;> simp [asstrneqChars]
    | cons s ss =>
      cases n with
      | zero => simp [asstrneqChars]
      | succ m => by_cases h : d = s <;> simp [asstrneqChars, h, ih]

lemma makeArgvSubst_some (cmd : List Char) (subs : List (List Char × CStr))
    (t : List Char) :
    makeArgvSubst cmd subs (some t) = substTokenSpec cmd subs t := by
  simp only [makeArgvSubst, substTokenSpec, asstreq, asstreqChars_eq_decide,
    decide_eq_true_eq]

lemma makeArgvSubst_none (cmd : List Char) (subs : List (List Char × CStr)) :
    makeArgvSubst cmd subs none = none := by
  have hfind : subs.find? (fun _ : List Char × CStr => false) = none :=
    List.find?_eq_none.mpr (by simp)
  simp [makeArgvSubst, asstreq, hfind]

lemma makeArgv_of_fits (maxArgs : Nat) (cmd : List Char)
    (toks : List (List Char)) (subs : List (List Char × CStr))
    (h : toks.length + 1 < maxArgs) :
    makeArgv maxArgs (some cmd) (some toks) subs
      = some (toks.map (substTokenSpec cmd subs) ++ [none, none]) := by
  simp only [makeArgv, if_neg (Nat.not_le.mpr h), List.map_append, List.map_map,
    List.map_cons, List.map_nil, makeArgvSubst_none]
  have : (makeArgvSubst cmd subs ∘ some) = substTokenSpec cmd subs := by
    funext t
    exact makeArgvSubst_some cmd subs t
  rw [this]
  simp

/-! ### Claim theorems -/

/-- Claim C3: `_MakeArgv` on command `"/bin/tool"`, template
`["$cmd", "-p", "$pid", "-r", "$reason"]` and substitutions
`{$pid ↦ "1234", $reason ↦ "oom"}` succeeds and writes exactly
`["/bin/tool", "-p", "1234", "-r", "oom", NULL]` (the code writes one
further NULL after copying the template's terminator; the argv proper —
the slots up to and including the first NULL — is exactly the claimed
list).  In general, for any template that fits, every token equal to
`"$cmd"` becomes the command, every token equal to a substitution key
becomes that key's value, every other token is copied unchanged in order,
and a NULL terminator is appended after the last argument. -/
theorem makeArgv_substitution_correct :
    (makeArgv 32 (some ("/bin/tool".toList))
        (some ["$cmd".toList, "-p".toList, "$pid".toList, "-r".toList, "$reason".toList])
        [("$pid".toList, some ("1234".toList)), ("$reason".toList, some ("oom".toList))]
      = some [some ("/bin/tool".toList), some ("-p".toList), some ("1234".toList),
              some ("-r".toList), some ("oom".toList), none, none])
    ∧ ∀ (maxArgs : Nat) (cmd : List Char) (toks : List (List Char))
        (subs : List (List Char × CStr)),
        toks.length + 1 < maxArgs →
        makeArgv maxArgs (some cmd) (some toks) subs
          = some (toks.map (substTokenSpec cmd subs) ++ [none, none]) := by
  exact ⟨by decide, makeArgv_of_fits⟩

/-- Witness for C3: the general substitution law applied at a concrete
command, template and substitution list, hypothesis discharged there. -/
theorem makeArgv_substitution_witness :
    makeArgv 8 (some ("c".toList)) (some ["a".toList, "$x".toList])
        [("$x".toList, some ("v".toList))]
      = some (["a".toList, "$x".toList].map
          (substTokenSpec ("c".toList) [("$x".toList, some ("v".toList))]) ++ [none, none]) :=
  makeArgv_substitution_correct.2 8 ("c".toList) ["a".toList, "$x".toList]
    [("$x".toList, some ("v".toList))] (by decide)

/-- Counterexample to claim C4: the claim says a template with at most
`maxArgs - 1` entries succeeds, but with `maxArgs = 32` a template of 31
entries (31 ≤ 31 = maxArgs - 1) is rejected: the code counts the
template's NULL terminator too (`n` starts at 1) and fails as soon as
`entries + 1 ≥ maxArgs`. -/
theorem makeArgv_boundary_counterexample :
    (List.replicate 31 ("a".toList)).length ≤ 32 - 1
    ∧ makeArgv 32 (some ("c".toList)) (some (List.replicate 31 ("a".toList))) [] = none := by
  decide

/-- Claim C4 (amended): given a non-NULL command and template, `_MakeArgv`
succeeds iff the template has at most `maxArgs - 2` entries (entry count
plus the terminator slot it also copies must be strictly below `maxArgs`);
with more entries it returns false. -/
theorem makeArgv_boundary_correct (maxArgs : Nat) (cmd : List Char)
    (toks : List (List Char)) (subs : List (List Char × CStr)) :
    (makeArgv maxArgs (some cmd) (some toks) subs).isSome
      = decide (toks.length + 1 < maxArgs) := by
  by_cases h : toks.length + 1 < maxArgs
  · simp [makeArgv_of_fits maxArgs cmd toks subs h, h]
  · have hle : maxArgs ≤ toks.length + 1 := Nat.le_of_not_lt h
    simp [makeArgv, hle, h]

/-- Counterexample to claim C8: the claim says `asstrcpy` tolerates a NULL
argument without faulting, but the code dereferences `src` unconditionally
(`while ((*dst++ = *src++))`, stackTrace.cpp:331), so a NULL source is a
NULL dereference — in the embedding `asstrcpy none` has no defined
result, while every non-NULL source does. -/
theorem asstrcpy_null_counterexample :
    (asstrcpy none).isSome = false ∧ (asstrcpy (some ("x".toList))).isSome = true := by
  decide

/-- Claim C8 (amended): `asstrlen`, `asstreq` and `asstrneq` tolerate NULL
arguments (`asstrlen(NULL) = 0`; `asstreq`/`asstrneq` are true on two
NULLs and false when exactly one side is NULL); `asstrcpy` requires a
non-NULL source (the code dereferences it unconditionally) and for a
non-NULL source copies the string and returns the end pointer; for
non-NULL arguments `asstreq` is full string equality and `asstrneq` is
equality of the first `n` characters. -/
theorem asyncSafeStrings_null_tolerance :
    asstrlen none = 0
    ∧ (∀ s, asstrlen (some s) = s.length)
    ∧ asstrcpy none = none
    ∧ (∀ s, asstrcpy (some s) = some (s, s.length))
    ∧ asstreq none none = true
    ∧ (∀ s, asstreq none (some s) = false ∧ asstreq (some s) none = false)
    ∧ (∀ n, asstrneq none none n = true)
    ∧ (∀ s n, asstrneq none (some s) n = false ∧ asstrneq (some s) none n = false)
    ∧ (∀ d s, asstreq (some d) (some s) = decide (d = s))
    ∧ (∀ d s n, asstrneq (some d) (some s) n = decide (d.take n = s.take n)) := by
  refine ⟨rfl, fun s => rfl, rfl, fun s => rfl, rfl, fun s => ⟨rfl, rfl⟩,
    fun n => rfl, fun s n => ⟨rfl, rfl⟩, asstreqChars_eq_decide, asstrneqChars_eq_decide⟩

lemma takeWhile_append_of_all {α : Type} {p : α → Bool} {l1 l2 : List α}
    (h : ∀ x ∈ l1, p x) :
    (l1 ++ l2).takeWhile p = l1 ++ l2.takeWhile p := by
  induction l1 with
  | nil => simp
  | cons c cs ih =>
    have hc : p c := h c (List.mem_cons_self c cs)
    simp only [List.cons_append, List.takeWhile_cons, hc, if_true]
    rw [ih (fun x hx => h x (List.mem_cons_of_mem c hx))]

lemma takeWhile_append_of_not_all {α : Type} {p : α → Bool} {l1 l2 : List α}
    (h : ∃ x ∈ l1, ¬ p x) :
    (l1 ++ l2).takeWhile p = l1.takeWhile p := by
  induction l1 with
  | nil => exact absurd h (by simp)
  | cons c cs ih =>
    by_cases hc : p c
    · simp only [List.cons_append, List.takeWhile_cons, hc, if_true]
      have : ∃ x ∈ cs, ¬ p x := by
        obtain ⟨x, hx, hpx⟩ := h
        rcases List.mem_cons.mp hx with rfl | hx
        · exact absurd hc hpx
        · exact ⟨x, hx, hpx⟩
      rw [ih this]
    · simp [List.takeWhile_cons, hc]

lemma afterLastSlash_eq (l : List Char) :
    afterLastSlash l =
      if '/' ∈ l then some ((l.reverse.takeWhile (fun c => c ≠ '/')).reverse)
      else none := by
  induction l with
  | nil => simp [afterLastSlash]
  | cons c rest ih =>
    by_cases hrest : '/' ∈ rest
    · have hex : ∃ x ∈ rest.reverse, ¬ (x ≠ '/' : Bool) := by
        exact ⟨'/', List.mem_reverse.mpr hrest, by simp⟩
      simp only [afterLastSlash, ih, if_pos hrest, List.mem_cons, hrest, or_true,
        if_true, List.reverse_cons, takeWhile_append_of_not_all hex]
    · by_cases hc : c = '/'
      · have hall : ∀ x ∈ rest.reverse, (x ≠ '/' : Bool) := by
          intro x hx
          simp only [ne_eq, decide_eq_true_eq]
          intro hx'
          exact hrest (hx' ▸ List.mem_reverse.mp hx)
        simp only [afterLastSlash, ih, if_neg hrest, hc, if_true, List.mem_cons,
          or_iff_left hrest, if_pos rfl, List.reverse_cons,
          takeWhile_append_of_all hall]
        simp
      · simp only [afterLastSlash, ih, if_neg hrest, if_neg hc, List.mem_cons]
        rw [if_neg]
        rintro (h | h)
        · exact hc h.symm
        · exact hrest h

lemma getBase_eq (p : String) :
    getBase p =
      if '/' ∈ p.toList then
        (if lastComponentSpec p = "" then p else lastComponentSpec p)
      else p := by
  unfold getBase
  rw [afterLastSlash_eq]
  by_cases h : '/' ∈ p.toList
  · simp only [if_pos h]
    set base := (p.toList.reverse.takeWhile (fun c => c ≠ '/')).reverse with hbase
    have hlc : lastComponentSpec p = String.mk base := rfl
    by_cases h0 : base = []
    · rw [h0]
      simp [hlc, h0, String.ext_iff]
    · have hlen : 0 < base.length := List.length_pos.mpr h0
      have hne : lastComponentSpec p ≠ "" := by
        rw [hlc]
        intro hcontr
        exact h0 (by simpa [String.ext_iff] using hcontr)
      rw [if_pos hlen, hlc, if_neg (hlc ▸ hne)]
  · rw [if_neg h, if_neg h]

/-- Claim C10: `SetProgramNameForErrors(p)` with non-NULL `p` stores only
the final path component of `p` — the substring after the last `'/'`,
falling back to the whole string when `p` has no `'/'` or the part after
the last `'/'` is empty — and `SetProgramNameForErrors(NULL)` clears the
stored name, after which `GetProgramNameForErrors` returns the default
constant `"libArch"`. -/
theorem programName_stores_base_name :
    (∀ s : ArchState,
      getProgramNameForErrors (archStep (.setProgramName none) s) = "libArch")
    ∧ ∀ (s : ArchState) (p : String),
        getProgramNameForErrors (archStep (.setProgramName (some p)) s)
          = if '/' ∈ p.toList then
              (if lastComponentSpec p = "" then p else lastComponentSpec p)
            else p := by
  constructor
  · intro s
    rfl
  · intro s p
    show getBase p = _
    exact getBase_eq p

lemma isCrashing_archStep (op : ArchOp) (s : ArchState) :
    (archStep op s).isCrashing = (s.isCrashing || isFatalOp op) := by
  cases op with
  | setProgramInfo k v => simp [archStep, isFatalOp]
  | setExtraLogInfo k lines =>
    cases lines with
    | none => simp [archStep, isFatalOp]
    | some ls => by_cases h : ls = [] <;> simp [archStep, isFatalOp, h]
  | setProgramName p => cases p <;> simp [archStep, isFatalOp]
  | logFatalProcessState => simp [archStep, isFatalOp]
  | logCurrentProcessState => simp [archStep, isFatalOp]
  | logStackTrace fatal => simp [archStep, isFatalOp]
  | setFatalStackLogging flag => simp [archStep, isFatalOp]
  | setLogSession command argv crashArgv => simp [archStep, isFatalOp]
  | setProcessStateLogCommand command argv fatalArgv => simp [archStep, isFatalOp]
  | setStackTraceCallback cb => simp [archStep, isFatalOp]
  | enableSessionLogging => simp [archStep, isFatalOp]
  | logSessionInfo trace => simp [archStep, isFatalOp]

lemma isCrashing_archRun (s : ArchState) (ops : List ArchOp) :
    (archRun s ops).isCrashing = (s.isCrashing || ops.any isFatalOp) := by
  induction ops generalizing s with
  | nil => simp [archRun]
  | cons op rest ih =>
    show (archRun (archStep op s) rest).isCrashing = _
    rw [ih, isCrashing_archStep]
    simp [Bool.or_assoc]

/-- Claim C2: the crash flag is one-way.  Starting from process start it
reads false; after any sequence of the component's operations it reads
true iff the sequence contained a fatal report (`LogFatalProcessState`,
the only writer of `_isCrashing`), so it reads false before any fatal
report has started, becomes true the moment one enters, and no operation
of the component — in particular not the non-fatal
`LogCurrentProcessState`, which leaves it unchanged — ever resets it for
the remainder of the process: once a fatal report occurred, every
continuation of the run still reads true. -/
theorem crashFlag_one_way :
    isAppCrashing initState = false
    ∧ (∀ ops : List ArchOp,
        isAppCrashing (archRun initState ops) = ops.any isFatalOp)
    ∧ (∀ ops : List ArchOp, ops.any isFatalOp = false →
        isAppCrashing (archRun initState ops) = false)
    ∧ (∀ s, isAppCrashing (archStep .logFatalProcessState s) = true)
    ∧ (∀ s, isAppCrashing (archStep .logCurrentProcessState s) = isAppCrashing s)
    ∧ (∀ (s : ArchState) (op : ArchOp),
        isAppCrashing s = true → isAppCrashing (archStep op s) = true)
    ∧ (∀ (ops more : List ArchOp), ops.any isFatalOp = true →
        isAppCrashing (archRun initState (ops ++ more)) = true) := by
  have hrun : ∀ ops : List ArchOp,
      isAppCrashing (archRun initState ops) = ops.any isFatalOp := by
    intro ops
    rw [show isAppCrashing (archRun initState ops) = (archRun initState ops).isCrashing
      from rfl, isCrashing_archRun]
    rfl
  refine ⟨rfl, hrun, ?_, fun s => rfl, fun s => rfl, ?_, ?_⟩
  · intro ops h
    rw [hrun ops, h]
  · intro s op h
    show (archStep op s).isCrashing = true
    rw [isCrashing_archStep]
    simp [show s.isCrashing = true from h]
  · intro ops more h
    rw [hrun (ops ++ more), List.any_append, h, Bool.true_or]

/-- Witness for C2: `crashFlag_one_way` applied at concrete runs — a
fatal-free run reads false, the flag is set by a fatal report and stays
set across a later non-fatal mutation, and a run extending a fatal report
with further operations still reads true. -/
theorem crashFlag_one_way_witness :
    isAppCrashing (archRun initState
      [.setProgramInfo "k" "v", .logCurrentProcessState]) = false
    ∧ isAppCrashing (archStep (.setProgramName none)
        (archStep .logFatalProcessState initState)) = true
    ∧ isAppCrashing (archRun initState
        ([.logFatalProcessState] ++ [.setProgramName none, .logCurrentProcessState]))
      = true := by
  refine ⟨crashFlag_one_way.2.2.1 _ (by decide), ?_, crashFlag_one_way.2.2.2.2.2.2 _ _ (by decide)⟩
  exact crashFlag_one_way.2.2.2.2.2.1 (archStep .logFatalProcessState initState)
    (.setProgramName none) (crashFlag_one_way.2.2.2.1 initState)

lemma mem_mapInsert {α : Type} (k : String) (v : α) (l : List (String × α))
    (x : String × α) (hx : x ∈ mapInsert k v l) : x = (k, v) ∨ x ∈ l := by
  induction l with
  | nil => simpa [mapInsert] using hx
  | cons hd tl ih =>
    obtain ⟨k', v'⟩ := hd
    unfold mapInsert at hx
    by_cases h1 : k < k'
    · rw [if_pos h1] at hx
      rcases List.mem_cons.mp hx with h | h
      · exact Or.inl h
      · exact Or.inr h
    · rw [if_neg h1] at hx
      by_cases h2 : k = k'
      · rw [if_pos h2] at hx
        rcases List.mem_cons.mp hx with h | h
        · exact Or.inl h
        · exact Or.inr (List.mem_cons_of_mem _ h)
      · rw [if_neg h2] at hx
        rcases List.mem_cons.mp hx with h | h
        · exact Or.inr (h ▸ List.mem_cons_self _ _)
        · rcases ih h with h' | h'
          · exact Or.inl h'
          · exact Or.inr (List.mem_cons_of_mem _ h')

lemma pairwise_mapInsert {α : Type} (k : String) (v : α) (l : List (String × α))
    (h : l.Pairwise (fun a b => a.1 < b.1)) :
    (mapInsert k v l).Pairwise (fun a b => a.1 < b.1) := by
  induction l with
  | nil => simp [mapInsert]
  | cons hd tl ih =>
    obtain ⟨k', v'⟩ := hd
    obtain ⟨hhd, htl⟩ := List.pairwise_cons.mp h
    unfold mapInsert
    by_cases h1 : k < k'
    · rw [if_pos h1]
      refine List.pairwise_cons.mpr ⟨?_, h⟩
      intro x hx
      rcases List.mem_cons.mp hx with rfl | hx
      · exact h1
      · exact lt_trans h1 (hhd x hx)
    · rw [if_neg h1]
      by_cases h2 : k = k'
      · rw [if_pos h2]
        refine List.pairwise_cons.mpr ⟨?_, htl⟩
        intro x hx
        exact h2 ▸ hhd x hx
      · rw [if_neg h2]
        refine List.pairwise_cons.mpr ⟨?_, ih htl⟩
        intro x hx
        have hk : k' < k := by
          rcases lt_trichotomy k k' with h' | h' | h'
          · exact absurd h' h1
          · exact absurd h' h2
          · exact h'
        rcases mem_mapInsert k v tl x hx with rfl | hx
        · exact hk
        · exact hhd x hx

lemma mapErase_sublist {α : Type} (k : String) (l : List (String × α)) :
    List.Sublist (mapErase k l) l := by
  induction l with
  | nil => exact List.Sublist.refl []
  | cons hd tl ih =>
    obtain ⟨k', v'⟩ := hd
    unfold mapErase
    by_cases h : k = k'
    · rw [if_pos h]
      exact List.sublist_cons_self _ _
    · rw [if_neg h]
      exact List.Sublist.cons₂ _ ih

lemma pairwise_mapErase {α : Type} (k : String) (l : List (String × α))
    (h : l.Pairwise (fun a b => a.1 < b.1)) :
    (mapErase k l).Pairwise (fun a b => a.1 < b.1) :=
  List.Pairwise.sublist (mapErase_sublist k l) h

lemma keys_ne_mapErase {α : Type} (k : String) (l : List (String × α))
    (h : l.Pairwise (fun a b => a.1 < b.1)) :
    ∀ x ∈ mapErase k l, x.1 ≠ k := by
  induction l with
  | nil => simp [mapErase]
  | cons hd tl ih =>
    obtain ⟨k', v'⟩ := hd
    obtain ⟨hhd, htl⟩ := List.pairwise_cons.mp h
    unfold mapErase
    by_cases hk : k = k'
    · rw [if_pos hk]
      intro x hx
      exact ne_of_gt (hk ▸ hhd x hx)
    · rw [if_neg hk]
      intro x hx
      rcases List.mem_cons.mp hx with rfl | hx
      · exact fun hcontr => hk hcontr.symm
      · exact ih htl x hx

lemma progInfoInv_step (op : ArchOp) (s : ArchState) (h : ProgInfoInv s) :
    ProgInfoInv (archStep op s) := by
  obtain ⟨hsnap, hsort⟩ := h
  cases op with
  | setProgramInfo k v =>
    by_cases hv : v = ""
    · exact ⟨rfl, by simpa [archStep, hv] using pairwise_mapErase k s.progInfoMap hsort⟩
    · exact ⟨rfl, by simpa [archStep, hv] using pairwise_mapInsert k v s.progInfoMap hsort⟩
  | setExtraLogInfo k lines =>
    cases lines with
    | none => exact ⟨hsnap, hsort⟩
    | some ls =>
      by_cases hl : ls = [] <;> simp [archStep, hl] <;> exact ⟨hsnap, hsort⟩
  | setProgramName p => cases p <;> exact ⟨hsnap, hsort⟩
  | logFatalProcessState => exact ⟨hsnap, hsort⟩
  | logCurrentProcessState => exact ⟨hsnap, hsort⟩
  | logStackTrace fatal => exact ⟨hsnap, hsort⟩
  | setFatalStackLogging flag => exact ⟨hsnap, hsort⟩
  | setLogSession command argv crashArgv => exact ⟨hsnap, hsort⟩
  | setProcessStateLogCommand command argv fatalArgv => exact ⟨hsnap, hsort⟩
  | setStackTraceCallback cb => exact ⟨hsnap, hsort⟩
  | enableSessionLogging => exact ⟨hsnap, hsort⟩
  | logSessionInfo trace => exact ⟨hsnap, hsort⟩

lemma progInfoInv_run (ops : List ArchOp) (s : ArchState) (h : ProgInfoInv s) :
    ProgInfoInv (archRun s ops) := by
  induction ops generalizing s with
  | nil => exact h
  | cons op rest ih => exact ih (archStep op s) (progInfoInv_step op s h)

/-- Claim C1: after every sequence of `SetProgramInfoForErrors` calls the
flattened snapshot string equals the concatenation of `"key: value\n"`
over the map's entries, the entries being sorted by strictly ascending
key; and appending a call with an empty value removes the key, so no
entry for it remains in the map (hence nothing for it in the snapshot,
which again equals the flattening of the remaining entries). -/
theorem progInfo_snapshot_invariant (ops : List ArchOp) (k : String) :
    (archRun initState ops).progInfoSnapshot
      = flattenInfo (archRun initState ops).progInfoMap
    ∧ (archRun initState ops).progInfoMap.Pairwise (fun a b => a.1 < b.1)
    ∧ (archRun initState (ops ++ [.setProgramInfo k ""])).progInfoMap.all
        (fun kv => kv.1 != k) = true
    ∧ (archRun initState (ops ++ [.setProgramInfo k ""])).progInfoSnapshot
      = flattenInfo (archRun initState (ops ++ [.setProgramInfo k ""])).progInfoMap := by
  have hinit : ProgInfoInv initState := ⟨rfl, List.Pairwise.nil⟩
  have hrun := progInfoInv_run ops initState hinit
  have happ : archRun initState (ops ++ [ArchOp.setProgramInfo k ""])
      = archStep (.setProgramInfo k "") (archRun initState ops) := by
    simp [archRun, List.foldl_append]
  refine ⟨hrun.1, hrun.2, ?_, ?_⟩
  · rw [happ]
    rw [List.all_eq_true]
    intro x hx
    have hmem : x ∈ mapErase k (archRun initState ops).progInfoMap := by
      simpa [archStep] using hx
    exact bne_iff_ne.mpr (keys_ne_mapErase k _ hrun.2 x hmem)
  · rw [happ]
    exact (progInfoInv_step (.setProgramInfo k "") _ hrun).1

lemma decRepAux_fuel (n : Nat) : ∀ f1 f2, n < f1 → n < f2 →
    decRepAux f1 n = decRepAux f2 n := by
  induction n using Nat.strong_induction_on with
  | _ n ih =>
    intro f1 f2 h1 h2
    cases f1 with
    | zero => omega
    | succ g1 =>
      cases f2 with
      | zero => omega
      | succ g2 =>
        by_cases h10 : n < 10
        · simp [decRepAux, h10]
        · have hdivlt : n / 10 < n := Nat.div_lt_self (by omega) (by omega)
          simp only [decRepAux, if_neg h10]
          rw [ih (n / 10) hdivlt g1 g2 (by omega) (by omega)]

lemma length_decRep (n : Nat) : (decRep n).length = digitLoop n + 1 := by
  induction n using Nat.strong_induction_on with
  | _ n ih =>
    by_cases h10 : n < 10
    · simp [decRep, decRepAux, h10, digitLoop]
    · have hdivlt : n / 10 < n := Nat.div_lt_self (by omega) (by omega)
      have hstep : decRep n = decRepAux n (n / 10) ++ [Nat.digitChar (n % 10)] := by
        simp [decRep, decRepAux, h10]
      rw [hstep, decRepAux_fuel (n / 10) n (n / 10 + 1) (by omega) (by omega)]
      have := ih (n / 10) hdivlt
      rw [show digitLoop n = 1 + digitLoop (n / 10) by rw [digitLoop]; simp [h10]]
      simp only [List.length_append, List.length_cons, List.length_nil]
      rw [show decRepAux (n / 10 + 1) (n / 10) = decRep (n / 10) from rfl, this]
      omega

lemma asitoaDigits_eq_decRep (n : Nat) (h : 0 < n) : asitoaDigits n = decRep n := by
  induction n using Nat.strong_induction_on with
  | _ n ih =>
    rw [asitoaDigits, if_neg (by omega)]
    by_cases h10 : n < 10
    · have hdiv : n / 10 = 0 := Nat.div_eq_of_lt h10
      rw [hdiv, asitoaDigits, if_pos rfl]
      have hmod : n % 10 = n := Nat.mod_eq_of_lt h10
      simp [decRep, decRepAux, h10, hmod]
    · have hdivlt : n / 10 < n := Nat.div_lt_self (by omega) (by omega)
      have hdivpos : 0 < n / 10 := Nat.div_pos (by omega) (by omega)
      rw [ih (n / 10) hdivlt hdivpos]
      have hstep : decRep n = decRepAux n (n / 10) ++ [Nat.digitChar (n % 10)] := by
        simp [decRep, decRepAux, h10]
      rw [hstep, decRepAux_fuel (n / 10) n (n / 10 + 1) (by omega) (by omega)]
      rfl

/-- Counterexamples to claim C7.  At `x = LONG_MIN` the claim promises the
digit count of |LONG_MIN| plus a sign slot, i.e. 19 + 1 = 20, but
`asNumDigits` negates `x` first (`x = -x` wraps back to `LONG_MIN` on the
two's-complement targets), leaves `x` negative so the counting loop never
runs, and returns 2.  And at `x = -45` the claim promises a leading `'-'`
followed by the digits (`"-45"`, end offset 3), but `asitoa` stores the
`'-'` without advancing the cursor and advances by `asNumDigits` of the
already-negated value, so the digit loop overwrites the sign: the buffer
holds `"45"` and the returned end offset is 2. -/
theorem asNumDigits_asitoa_counterexample :
    asNumDigits longMin = 2
    ∧ decDigitCount (Int.natAbs longMin) + 1 = 20
    ∧ asNumDigits longMin ≠ decDigitCount (Int.natAbs longMin) + 1
    ∧ asitoa (-45) = some (['4', '5'], 2)
    ∧ asitoa (-45) ≠ some (['-', '4', '5'], 3) := by
  have h45 : asitoa (-45) = some (['4', '5'], 2) := by
    simp [asitoa, longNeg, longMin, longBits, asNumDigits, digitLoop, asitoaDigits]
    simp [asitoaDigits, Nat.digitChar]
  refine ⟨?_, by decide, ?_, h45, ?_⟩
  · simp [asNumDigits, longNeg, longMin, longBits, digitLoop]
  · simp [asNumDigits, longNeg, longMin, longBits, digitLoop]
    decide
  · rw [h45]
    simp

/-- Claim C7 (amended): for every signed long `x` other than `LONG_MIN`
(whose negation overflows), `asNumDigits x` is the decimal digit count of
`|x|` plus one for the sign slot when `x` is negative; `asitoa` leaves in
the buffer the decimal digits of `|x|` with no leading zeros (a single
`'0'` for 0) and no sign — for negative `x` the `'-'` it stores at `s[0]`
is overwritten by the digit loop, because the cursor advances by
`asNumDigits` of the already-negated value, the digit count alone —
writes the terminating NUL after the digits, and returns the end offset
`digitCount(|x|)`, one past the last written digit (the NUL position,
since `decDigitCount` is by definition the length of the digit
string). -/
theorem asNumDigits_asitoa_correct (x : Int) (h1 : longMin < x) (h2 : x < 2 ^ 63) :
    asNumDigits x = decDigitCount x.natAbs + (if x < 0 then 1 else 0)
    ∧ asitoa x = some (decRep x.natAbs, decDigitCount x.natAbs) := by
  have hne : x ≠ longMin := ne_of_gt h1
  have hcount : asNumDigits x = decDigitCount x.natAbs + (if x < 0 then 1 else 0) := by
    by_cases hneg : x < 0
    · have htoNat : (longNeg x).toNat = x.natAbs := by
        rw [longNeg, if_neg hne]
        omega
      rw [asNumDigits, if_pos hneg, htoNat, if_pos hneg]
      unfold decDigitCount
      rw [length_decRep]
      omega
    · have htoNat : x.toNat = x.natAbs := by omega
      rw [asNumDigits, if_neg hneg, htoNat, if_neg hneg]
      unfold decDigitCount
      rw [length_decRep]
      omega
  refine ⟨hcount, ?_⟩
  by_cases hneg : x < 0
  · have hy : longNeg x = -x := by rw [longNeg, if_neg hne]
    have hypos : (0 : Int) < -x := by omega
    have htoNat : (-x).toNat = x.natAbs := by omega
    have hnd : asNumDigits (-x) = decDigitCount x.natAbs := by
      rw [asNumDigits, if_neg (by omega), htoNat]
      unfold decDigitCount
      rw [length_decRep]
      omega
    rw [asitoa, if_pos hneg, hy, if_neg (by omega), if_neg (by omega), htoNat,
      asitoaDigits_eq_decRep x.natAbs (by omega), hnd]
  · rw [asitoa, if_neg hneg, hcount, if_neg hneg]
    by_cases h0 : x = 0
    · subst h0
      rfl
    · have htoNat : x.toNat = x.natAbs := by omega
      rw [if_neg h0, htoNat, asitoaDigits_eq_decRep x.natAbs (by omega), Nat.add_zero]

/-- Witness for C7 (amended): the theorem applied at `x = -45`. -/
theorem asNumDigits_asitoa_witness :
    asNumDigits (-45) = decDigitCount (Int.natAbs (-45)) + (if (-45 : Int) < 0 then 1 else 0)
    ∧ asitoa (-45) = some (decRep (Int.natAbs (-45)), decDigitCount (Int.natAbs (-45))) :=
  asNumDigits_asitoa_correct (-45) (by decide) (by decide)

lemma traceLoop_skipUnknown (cb : Nat → String) (l : List Nat) (n : Nat) :
    traceLoop cb true l n
      = (List.enumFrom n (l.filter (fun f => cb f != "<unknown>"))).map
          (fun p => frameLine p.1 p.2 (cb p.2)) := by
  induction l generalizing n with
  | nil => simp [traceLoop]
  | cons f rest ih =>
    by_cases h : cb f = "<unknown>"
    · simp [traceLoop, h, ih]
    · simp [traceLoop, h, ih]

/-- Claim C9: the default frame formatter returns exactly `"<unknown>"`
when the lookup at `address - 1` resolves no symbol; and rendering with
`skipUnknownFrames = true` omits every frame whose label is `"<unknown>"`
while the kept frames get consecutive indices starting at 0 (skipped
frames consume no index), each line being `" #<n> 0x<address> in
<symbol>"` (`frameLine`, with the code's exact `%-3i`/`%016lx`
padding). -/
theorem unknownFrames_formatting (lookup : Nat → Option AddressInfo)
    (demangle : String → String) (address : Nat) (callback : Nat → String)
    (frames : List Nat) :
    (lookup (u64pred address) = none →
      defaultStackTraceCallback lookup demangle address = "<unknown>")
    ∧ (frames ≠ [] →
      getStackTraceList callback frames true
        = ((frames.filter (fun f => callback f != "<unknown>")).enum).map
            (fun p => frameLine p.1 p.2 (callback p.2))) := by
  constructor
  · intro h
    simp [defaultStackTraceCallback, h]
  · intro h
    rw [getStackTraceList, if_neg h, List.enum_eq_enumFrom]
    exact traceLoop_skipUnknown callback frames 0

/-- Witness for C9: a lookup that always fails yields `"<unknown>"`, and a
three-frame trace whose middle frame is unknown renders as two lines with
consecutive indices 0 and 1, by `unknownFrames_formatting` at concrete
inputs. -/
theorem unknownFrames_formatting_witness :
    defaultStackTraceCallback (fun _ => none) id 5 = "<unknown>"
    ∧ getStackTraceList (fun a => if a = 4 then "<unknown>" else "sym") [3, 4, 5] true
      = [" #0   0x0000000000000003 in sym", " #1   0x0000000000000005 in sym"] := by
  have h := unknownFrames_formatting (fun _ => none) id 5
    (fun a => if a = 4 then "<unknown>" else "sym") [3, 4, 5]
  refine ⟨h.1 rfl, ?_⟩
  rw [h.2 (by decide)]
  decide

lemma measureLoop_nil (maxTicks : Nat) (samples : List Nat) (b : Nat) :
    measureLoop maxTicks [] samples b
      = if (sortSamples samples).getD 0 0 = (sortSamples samples).getD (numSamples / 2) 0
        then ((sortSamples samples).getD 0 0, true)
        else (b, false) := rfl

lemma measureLoop_cons (maxTicks : Nat) (it : MeasureIter) (rest : List MeasureIter)
    (samples : List Nat) (b : Nat) :
    measureLoop maxTicks (it :: rest) samples b
      = if (sortSamples samples).getD 0 0 = (sortSamples samples).getD (numSamples / 2) 0
        then ((sortSamples samples).getD 0 0, true)
        else if maxTicks ≤ it.elapsed then (b, false)
        else measureLoop maxTicks rest (resample (sortSamples samples) it)
               (min b ((sortSamples samples).getD (numSamples / 2) 0)) := rfl

lemma completedMedians_nil (maxTicks : Nat) (samples : List Nat) :
    completedMedians maxTicks [] samples = [] := by
  rw [completedMedians]
  split <;> rfl

lemma completedMedians_cons (maxTicks : Nat) (it : MeasureIter)
    (rest : List MeasureIter) (samples : List Nat) :
    completedMedians maxTicks (it :: rest) samples
      = if (sortSamples samples).getD 0 0 = (sortSamples samples).getD (numSamples / 2) 0
        then []
        else if maxTicks ≤ it.elapsed then []
        else (sortSamples samples).getD (numSamples / 2) 0
              :: completedMedians maxTicks rest (resample (sortSamples samples) it) := rfl

lemma measureLoop_timeout (maxTicks : Nat) (iters : List MeasureIter) :
    ∀ (samples : List Nat) (b : Nat),
      (measureLoop maxTicks iters samples b).2 = false →
      (measureLoop maxTicks iters samples b).1
        = (completedMedians maxTicks iters samples).foldl min b := by
  induction iters with
  | nil =>
    intro samples b h
    rw [measureLoop_nil] at h ⊢
    rw [completedMedians_nil]
    by_cases hc : (sortSamples samples).getD 0 0
        = (sortSamples samples).getD (numSamples / 2) 0
    · rw [if_pos hc] at h
      exact absurd h (by simp)
    · rw [if_neg hc]
      rfl
  | cons it rest ih =>
    intro samples b h
    rw [measureLoop_cons] at h ⊢
    rw [completedMedians_cons]
    by_cases hc : (sortSamples samples).getD 0 0
        = (sortSamples samples).getD (numSamples / 2) 0
    · rw [if_pos hc] at h
      exact absurd h (by simp)
    · rw [if_neg hc] at h ⊢
      by_cases ht : maxTicks ≤ it.elapsed
      · rw [if_pos ht, if_neg hc, if_pos ht]
        rfl
      · rw [if_neg ht] at h ⊢
        rw [if_neg hc, if_neg ht, List.foldl_cons]
        exact ih _ _ h

/-- Counterexample to claim C5: when the budget expires at the very first
check without consensus, the code returns the initial `bestMedian`
sentinel `~0 = 2^64 - 1`, not "the smallest median observed across all
iterations" (here the only observed median is 1): the loop checks the
timer after the consensus check and folds the median into `bestMedian`
only after passing the time check, so the final iteration's median is
never considered. -/
theorem measure_timeout_counterexample :
    measureLoop 1 [⟨1, [], []⟩] (0 :: List.replicate 63 1) uint64Max
      = (uint64Max, false)
    ∧ medianOf (0 :: List.replicate 63 1) = 1
    ∧ uint64Max ≠ 1 := by
  decide

/-- Claim C5 (amended): the loop keeps a buffer of 64 samples; whenever
the sorted buffer's minimum equals its median it returns that minimum
with `reachedConsensus = true`; otherwise it replaces the slowest third
and the fastest tenth and repeats; the budget is capped at 5000000
microseconds; and when the budget expires without consensus it returns
the minimum of the sentinel `2^64 - 1` and the medians of the iterations
that passed the time check — the median seen at the final, timed-out
check is not included, so the sentinel itself is returned when the budget
expires before any iteration completes — with `reachedConsensus =
false`. -/
theorem measure_consensus_and_timeout (maxTicks : Nat) (iters : List MeasureIter)
    (samples : List Nat) (m : Nat) :
    ((sortSamples samples).getD 0 0 = (sortSamples samples).getD (numSamples / 2) 0 →
      measureLoop maxTicks iters samples uint64Max
        = ((sortSamples samples).getD 0 0, true))
    ∧ ((measureLoop maxTicks iters samples uint64Max).2 = false →
      (measureLoop maxTicks iters samples uint64Max).1
        = (completedMedians maxTicks iters samples).foldl min uint64Max)
    ∧ capMaxMicroseconds m = min m 5000000
    ∧ (∀ (sorted : List Nat) (it : MeasureIter),
        sorted.length = numSamples → it.slowNew.length = numSamples / 3 →
        it.fastNew.length = numSamples / 10 →
        (resample sorted it).length = numSamples) := by
  refine ⟨?_, measureLoop_timeout maxTicks iters samples uint64Max, ?_, ?_⟩
  · intro hc
    cases iters with
    | nil => rw [measureLoop_nil, if_pos hc]
    | cons it rest => rw [measureLoop_cons, if_pos hc]
  · rw [capMaxMicroseconds]
    split <;> omega
  · intro sorted it hs hslow hfast
    simp only [resample, List.length_append, List.length_drop, List.length_take,
      hs, hslow, hfast, numSamples]
    omega

/-- Witness for C5 (amended): a buffer in consensus returns its minimum
with consensus, and a run that times out returns the fold of its
completed medians, by `measure_consensus_and_timeout` at concrete
inputs. -/
theorem measure_consensus_and_timeout_witness :
    measureLoop 3 [] (List.replicate 64 5) uint64Max
      = ((sortSamples (List.replicate 64 5)).getD 0 0, true)
    ∧ (measureLoop 2 [⟨2, [], []⟩] (0 :: List.replicate 63 9) uint64Max).1
      = (completedMedians 2 [⟨2, [], []⟩] (0 :: List.replicate 63 9)).foldl min uint64Max
    ∧ (resample (List.replicate 64 2) ⟨0, List.replicate 21 3, List.replicate 6 1⟩).length
      = numSamples := by
  have h1 := measure_consensus_and_timeout 3 [] (List.replicate 64 5) 0
  have h2 := measure_consensus_and_timeout 2 [⟨2, [], []⟩] (0 :: List.replicate 63 9) 0
  exact ⟨h1.1 (by decide), h2.2.1 (by decide),
    h1.2.2.2 (List.replicate 64 2) ⟨0, List.replicate 21 3, List.replicate 6 1⟩
      (by decide) (by decide) (by decide)⟩

/-- Claim C6: with a fixed positive calibrated nanoseconds-per-tick
constant (the `double` arithmetic modelled as exact rationals), for ticks
below `2^24`: `TicksToSeconds` is within `1e-4` of
`TicksToNanoseconds / 1e9` (they agree exactly in the model), both
conversions are monotonic non-decreasing, and `TicksToNanoseconds`
rounds half-up — it is the integer in the half-open interval
`(t·r - 1/2, t·r + 1/2]`, i.e. the nearest integer with ties rounded
upward. -/
theorem ticks_conversions_correct (nsPerTick : ℚ) (hr : 0 < nsPerTick)
    (t u : Nat) (_ht : t < 2 ^ 24) (_hu : u < 2 ^ 24) (htu : t ≤ u) :
    |ticksToSeconds nsPerTick t - (ticksToNanoseconds nsPerTick t : ℚ) / 10 ^ 9|
        ≤ 1 / 10 ^ 4
    ∧ ticksToNanoseconds nsPerTick t ≤ ticksToNanoseconds nsPerTick u
    ∧ ticksToSeconds nsPerTick t ≤ ticksToSeconds nsPerTick u
    ∧ (t : ℚ) * nsPerTick - 1 / 2 < (ticksToNanoseconds nsPerTick t : ℚ)
    ∧ (ticksToNanoseconds nsPerTick t : ℚ) ≤ (t : ℚ) * nsPerTick + 1 / 2 := by
  have hmono : ticksToNanoseconds nsPerTick t ≤ ticksToNanoseconds nsPerTick u := by
    apply Int.floor_le_floor
    have hcast : (t : ℚ) ≤ (u : ℚ) := by exact_mod_cast htu
    have := mul_le_mul_of_nonneg_right hcast (le_of_lt hr)
    linarith
  refine ⟨?_, hmono, ?_, ?_, ?_⟩
  · have heq : ticksToSeconds nsPerTick t
        = (ticksToNanoseconds nsPerTick t : ℚ) / 10 ^ 9 := by
      rw [ticksToSeconds]
      norm_num
    rw [heq, sub_self, abs_zero]
    norm_num
  · rw [ticksToSeconds, ticksToSeconds]
    have hcast : (ticksToNanoseconds nsPerTick t : ℚ) ≤ ticksToNanoseconds nsPerTick u := by
      exact_mod_cast hmono
    linarith
  · have := Int.sub_one_lt_floor ((t : ℚ) * nsPerTick + 1 / 2)
    rw [ticksToNanoseconds]
    linarith
  · have := Int.floor_le ((t : ℚ) * nsPerTick + 1 / 2)
    rw [ticksToNanoseconds]
    linarith

/-- Witness for C6: the theorem applied at `nsPerTick = 3/2`, `t = 5`,
`u = 7`. -/
theorem ticks_conversions_witness :
    |ticksToSeconds (3 / 2) 5 - (ticksToNanoseconds (3 / 2) 5 : ℚ) / 10 ^ 9|
        ≤ 1 / 10 ^ 4
    ∧ ticksToNanoseconds (3 / 2) 5 ≤ ticksToNanoseconds (3 / 2) 7
    ∧ ticksToSeconds (3 / 2) 5 ≤ ticksToSeconds (3 / 2) 7
    ∧ (5 : ℚ) * (3 / 2) - 1 / 2 < (ticksToNanoseconds (3 / 2) 5 : ℚ)
    ∧ (ticksToNanoseconds (3 / 2) 5 : ℚ) ≤ (5 : ℚ) * (3 / 2) + 1 / 2 := by
  have h := ticks_conversions_correct (3 / 2) (by norm_num) 5 7 (by norm_num)
    (by norm_num) (by norm_num)
  simpa using h

end Arch

